import Mathlib

/-
  Verification development for the dynamic-extension framework
  (Bentley-Saxe style dynamization of static shard structures).

  The definitions below are a shallow embedding of the C++ sources:
    - include/framework/RecordInterface.h          (record envelope)
    - include/framework/structure/MutableBuffer.h  (bounded append buffer)
    - include/framework/structure/InternalLevel.h  (one level of the hierarchy)
    - include/framework/structure/ExtensionStructure.h (level list, reconstruction)
    - include/framework/reconstruction/LevelingPolicy.h
    - include/query/rangequery.h                   (range query combine step)
    - include/framework/DynamicExtension.h         (facade, epoch coordinator)

  Machine integers (uint32_t headers, size_t counters) are modelled as Nat;
  the header operations only ever set low bits or OR in a shifted position,
  so no wraparound is reachable in any statement below.  The concurrent
  atomics of the buffer and the epoch coordinator are modelled sequentially:
  buffer operations as pure state transformers (the single-writer-per-slot
  protocol makes the sequential model the linearization), and the epoch
  coordinator as a labelled transition system whose atomic actions are the
  coordinator operations themselves.
-/

namespace DE

/-- Model of the user record type `Record<K,V>` from RecordInterface.h with
Nat key and value.  `operator<` orders by key then value; `operator==`
compares key and value. -/
structure Record where
  key : Nat
  value : Nat
deriving DecidableEq, Repr

/-- Source `Record::operator<`: `key < other.key || (key == other.key && value < other.value)`. -/
def Record.lt (a b : Record) : Bool :=
  a.key < b.key || (a.key == b.key && a.value < b.value)

/-- Model of the record envelope `Wrapped<R>`: a 32-bit header (bit 0 =
tombstone, bit 1 = logical-delete tag, bits 2..31 = append position) around
the user record.  The C++ field `rec` is renamed `recd` because Lean
reserves `rec` for structure recursors. -/
structure Wrapped where
  header : Nat
  recd : Record
deriving DecidableEq, Repr

/-- Source `Wrapped::set_delete`: `header |= 2`. -/
def Wrapped.set_delete (w : Wrapped) : Wrapped :=
  { w with header := w.header ||| 2 }

/-- Source `Wrapped::is_deleted`: `header & 2`. -/
def Wrapped.is_deleted (w : Wrapped) : Bool :=
  w.header &&& 2 != 0

/-- Source `Wrapped::set_tombstone(bool val=true)`: when `val` holds the
header is OR-ed with `val` (the bool converts to 1); otherwise the source
executes `header &= 0`, which zeroes the entire header. -/
def Wrapped.set_tombstone (w : Wrapped) (val : Bool := true) : Wrapped :=
  if val then { w with header := w.header ||| 1 }
  else { w with header := w.header &&& 0 }

/-- Source `Wrapped::is_tombstone`: `header & 1`. -/
def Wrapped.is_tombstone (w : Wrapped) : Bool :=
  w.header &&& 1 != 0

/-- Source `Wrapped::operator<`: inner record order first, header breaking
ties. -/
def Wrapped.lt (a b : Wrapped) : Bool :=
  Record.lt a.recd b.recd || (a.recd == b.recd && a.header < b.header)

/-- Modelled collaborator: the tombstone bloom filter (psu-ds BloomFilter,
an external library).  Only the operations the claims touch are kept:
construction, insertion of a key, and memory-usage accounting. -/
structure BloomFilter where
  keys : List Record
deriving DecidableEq, Repr

/-- Modelled collaborator: `BloomFilter::get_memory_usage`. -/
def BloomFilter.get_memory_usage (f : BloomFilter) : Nat :=
  f.keys.length

/-- Model of `MutableBuffer<R>` (MutableBuffer.h).  Slots `[0, m_tail)` are
the populated prefix; in the sequential model the populated slots are the
list `m_data` (so `m_data.length = m_tail`).  The weighted-record fields
`m_weight` and `m_max_weight` play no role in any claim and are omitted;
`m_sorted_data` is a flush-time scratch copy, also untouched by the claims. -/
structure MutableBuffer where
  m_cap : Nat
  m_tombstone_cap : Nat
  m_data : List Wrapped
  m_tail : Nat
  m_reccnt : Nat
  m_tombstonecnt : Nat
  m_tombstone_filter : Option BloomFilter
deriving DecidableEq, Repr

/-- Source constructor `MutableBuffer(size_t capacity, size_t max_tombstone_cap)`:
note that the initializer list reads `m_tombstone_cap(capacity)` — the
tombstone capacity is set to `capacity`, not to `max_tombstone_cap`; the
latter only decides whether a tombstone bloom filter is allocated
(`nullptr` when `max_tombstone_cap == 0`). -/
def MutableBuffer.new (capacity max_tombstone_cap : Nat) : MutableBuffer :=
  { m_cap := capacity
    m_tombstone_cap := capacity
    m_data := []
    m_tail := 0
    m_reccnt := 0
    m_tombstonecnt := 0
    m_tombstone_filter := if max_tombstone_cap > 0 then some ⟨[]⟩ else none }

/-- Source `MutableBuffer::try_advance_tail`: `m_tail.fetch_add(1)` followed
by the bound check `new_tail < m_cap`; on failure the increment is undone
(`fetch_add(-1)`).  Sequentially: a slot index is granted iff the old tail
is below capacity, and a failed attempt leaves the state unchanged. -/
def MutableBuffer.try_advance_tail (b : MutableBuffer) : Option Nat × MutableBuffer :=
  if b.m_tail < b.m_cap then (some b.m_tail, { b with m_tail := b.m_tail + 1 })
  else (none, b)

/-- Source `MutableBuffer::append(rec, tombstone)`.  Returns the int result
(1 accepted / 0 rejected) together with the post-state.  Mirrors the source
order: tombstone-capacity check (`m_tombstonecnt + 1 > m_tombstone_cap`),
then `try_advance_tail`, then the slot write `m_data[pos] = wrec` and
`m_data[pos].header |= (pos << 2)`, then the tombstone counter/filter
update and `m_reccnt.fetch_add(1)`.  In the sequential model the granted
slot `pos` is exactly `m_data.length`, so the slot write is a list append. -/
def MutableBuffer.append (b : MutableBuffer) (rec : Record) (tombstone : Bool := false) :
    Nat × MutableBuffer :=
  if tombstone && decide (b.m_tombstonecnt + 1 > b.m_tombstone_cap) then (0, b)
  else
    match b.try_advance_tail with
    | (none, b1) => (0, b1)
    | (some pos, b1) =>
      let wrec0 : Wrapped := { header := 0, recd := rec }
      let wrec1 := if tombstone then wrec0.set_tombstone true else wrec0
      let wrec2 : Wrapped := { wrec1 with header := wrec1.header ||| (pos <<< 2) }
      let b2 := { b1 with m_data := b1.m_data ++ [wrec2] }
      let b3 :=
        if tombstone then
          { b2 with
            m_tombstonecnt := b2.m_tombstonecnt + 1
            m_tombstone_filter := b2.m_tombstone_filter.map (fun f => ⟨rec :: f.keys⟩) }
        else b2
      (1, { b3 with m_reccnt := b3.m_reccnt + 1 })

/-- Source `MutableBuffer::get_aux_memory_usage`: the body is
`return m_tombstone_filter->get_memory_usage();` with no null check, so
when no filter was allocated the call dereferences a null pointer —
modelled as `none`. -/
def MutableBuffer.get_aux_memory_usage (b : MutableBuffer) : Option Nat :=
  b.m_tombstone_filter.map BloomFilter.get_memory_usage

/-- Fragment of the `DynamicExtension` facade state needed by the claims
about construction and insertion. -/
structure DynamicExtension where
  m_buffer : MutableBuffer
deriving DecidableEq, Repr

/-- Source constructor `DynamicExtension(buffer_low_watermark,
buffer_high_watermark, scale_factor, ...)`: the member initializer is
`m_buffer(new Buffer(buffer_low_watermark, buffer_high_watermark))`, and
`Buffer = MutableBuffer<RecordType>` whose constructor parameters are
`(capacity, max_tombstone_cap)` — so the low watermark becomes the buffer
capacity and the high watermark becomes `max_tombstone_cap`. -/
def DynamicExtension.new (buffer_low_watermark buffer_high_watermark : Nat) :
    DynamicExtension :=
  { m_buffer := MutableBuffer.new buffer_low_watermark buffer_high_watermark }

/-- Source `DynamicExtension::insert` → `internal_append(rec, false)`:
the return value is `m_buffer->append(rec, ts)`.  (internal_append may
additionally CAS-submit a reconstruction job to the external scheduler at
the low watermark; that side channel affects the buffer only through a
later flush job and not the return value modelled here.) -/
def DynamicExtension.insert (d : DynamicExtension) (rec : Record) :
    Nat × DynamicExtension :=
  let r := d.m_buffer.append rec false
  (r.1, { d with m_buffer := r.2 })

/-- Helper: apply `f` to the element at index `i`, leaving the rest alone
(models in-place mutation of `m_levels[i]` / a cursor entry). -/
def updateAt {α : Type} (ls : List α) (i : Nat) (f : α → α) : List α :=
  ls.enum.map (fun p => if p.1 = i then f p.2 else p.2)

/-- Model of a shard's core-visible content: the immutable record sequence
it stores (ShardInterface is a pluggable collaborator; the claims only
need record identity and counts). -/
abbrev Shard := List Wrapped

/-- Modelled collaborator: merge construction `ShardType(std::vector<ShardType*>)`
builds a new shard over the union of the inputs' records.  (Tombstone
cancellation inside a concrete shard constructor is shard-specific and
irrelevant to the structural claims, which count gathered records.) -/
def Shard.merge (shards : List Shard) : Shard :=
  shards.flatten

/-- Source `point_lookup(rec)` on a shard: index of the first stored record
whose inner record equals the argument. -/
def Shard.point_lookup (s : Shard) (rec : Record) : Option Nat :=
  s.findIdx? (fun w => w.recd == rec)

/-- Count of tombstone records in a shard (the quantity a shard reports as
`get_tombstone_count`). -/
def Shard.tombstone_count (s : Shard) : Nat :=
  (s.filter (fun w => w.is_tombstone)).length

/-- Model of `InternalLevel<ShardType, QueryType>` (InternalLevel.h). -/
structure InternalLevel where
  m_level_no : Int
  m_shards : List Shard
deriving DecidableEq, Repr

/-- Source `InternalLevel::get_shard_count`. -/
def InternalLevel.get_shard_count (l : InternalLevel) : Nat :=
  l.m_shards.length

/-- Source `InternalLevel::get_record_count`: sum of the shards' record
counts. -/
def InternalLevel.get_record_count (l : InternalLevel) : Nat :=
  (l.m_shards.map List.length).sum

/-- Source `InternalLevel::get_tombstone_count`. -/
def InternalLevel.get_tombstone_count (l : InternalLevel) : Nat :=
  (l.m_shards.map Shard.tombstone_count).sum

/-- Source `InternalLevel::truncate`: erases every shard of the level. -/
def InternalLevel.truncate (l : InternalLevel) : InternalLevel :=
  { l with m_shards := [] }

/-- Source `InternalLevel::delete_shard(shard_index)`: erases the shard at
that index from the vector. -/
def InternalLevel.delete_shard (l : InternalLevel) (shard : Nat) : InternalLevel :=
  { l with m_shards := l.m_shards.eraseIdx shard }

/-- Source `InternalLevel::append(shard)`: pushes the shard at the end. -/
def InternalLevel.append (l : InternalLevel) (shard : Shard) : InternalLevel :=
  { l with m_shards := l.m_shards ++ [shard] }

/-- Source `InternalLevel::get_shard(idx)`: null when the index is out of
range (a negative `shard_idx` converts to a huge `size_t` and is likewise
out of range). -/
def InternalLevel.get_shard (l : InternalLevel) (idx : Int) : Option Shard :=
  if idx < 0 then none else l.m_shards.get? idx.toNat

/-- Source `InternalLevel::delete_record(rec)` (tagging path): scan the
shards in order, point-look the record up, and set the delete bit on the
first hit; returns whether a record was tagged together with the
post-state. -/
def InternalLevel.delete_record (l : InternalLevel) (rec : Record) :
    Bool × InternalLevel :=
  let step := l.m_shards.foldl
    (fun (acc : Bool × List Shard) s =>
      if acc.1 then (true, acc.2 ++ [s])
      else
        match s.point_lookup rec with
        | some i => (true, acc.2 ++ [updateAt s i Wrapped.set_delete])
        | none => (false, acc.2 ++ [s]))
    (false, [])
  (step.1, { l with m_shards := step.2 })

/-- Source `InternalLevel::clone()`: the body allocates `new_level` whose
shard vector is default-constructed (EMPTY) and then executes
`new_level->m_shards[i] = m_shards[i]` for every `i` below the source
level's shard count.  `operator[]` on an out-of-range index of a
`std::vector` is undefined behaviour, modelled as `none`: the assignment
succeeds only if index `i` already exists in the target vector. -/
def InternalLevel.clone (l : InternalLevel) : Option InternalLevel :=
  ((List.range l.m_shards.length).foldlM
      (fun (acc : List Shard) i =>
        match l.m_shards.get? i with
        | some s => if i < acc.length then some (acc.set i s) else none
        | none => none)
      ([] : List Shard)).map
    (fun shs => { m_level_no := l.m_level_no, m_shards := shs })

/-- Sentinel `all_shards_idx = -1` from util/types.h. -/
def all_shards_idx : Int := -1

/-- Sentinel `invalid_level_idx = -2` from util/types.h. -/
def invalid_level_idx : Int := -2

/-- Model of `ShardID` from util/types.h. -/
structure ShardID where
  level_idx : Int
  shard_idx : Int
deriving DecidableEq, Repr

/-- Model of `ReconstructionType` from util/types.h. -/
inductive ReconstructionType where
  | Invalid
  | Flush
  | Merge
  | Append
  | Compact
deriving DecidableEq, Repr

/-- Model of `ReconstructionTask` from util/types.h. -/
structure ReconstructionTask where
  sources : List ShardID
  target : Int
  reccnt : Nat
  type : ReconstructionType
deriving DecidableEq, Repr

/-- Model of `ExtensionStructure<ShardType, QueryType>` (ExtensionStructure.h). -/
structure ExtensionStructure where
  m_levels : List InternalLevel
deriving DecidableEq, Repr

/-- Source `ExtensionStructure::get_record_count`. -/
def ExtensionStructure.get_record_count (s : ExtensionStructure) : Nat :=
  (s.m_levels.map InternalLevel.get_record_count).sum

/-- Source `ExtensionStructure::get_tombstone_count`. -/
def ExtensionStructure.get_tombstone_count (s : ExtensionStructure) : Nat :=
  (s.m_levels.map InternalLevel.get_tombstone_count).sum

/-- Source `ExtensionStructure::get_height`. -/
def ExtensionStructure.get_height (s : ExtensionStructure) : Nat :=
  s.m_levels.length

/-- Source `ExtensionStructure::copy()`: a new structure whose level list is
built by cloning every level (`m_levels[i]->clone()`); fails (undefined
behaviour) as soon as one clone does. -/
def ExtensionStructure.copy (s : ExtensionStructure) : Option ExtensionStructure :=
  (s.m_levels.mapM InternalLevel.clone).map (fun ls => { m_levels := ls })

/-- Source `ExtensionStructure::tagged_delete(rec)`: walk the levels in
order and return on the first level whose `delete_record` reports a hit. -/
def ExtensionStructure.tagged_delete (s : ExtensionStructure) (rec : Record) :
    Bool × ExtensionStructure :=
  let step := s.m_levels.foldl
    (fun (acc : Bool × List InternalLevel) lv =>
      if acc.1 then (true, acc.2 ++ [lv])
      else
        let r := lv.delete_record rec
        (r.1, acc.2 ++ [r.2]))
    (false, [])
  (step.1, { m_levels := step.2 })

/-- Source `ExtensionStructure::perform_reconstruction(task)`.  Phase 1
gathers the source shards (a `shard_idx` of `all_shards_idx` expands to
every shard of the level; otherwise `get_shard(shard_idx)` is pushed — the
source does not null-check that pointer, which matters only for invalid
indexes).  Phase 2 builds the merged shard (`Shard(shards)` in the source;
the identifier is a slip for `ShardType`).  Phase 3 removes the sources
(truncate on ALL, `delete_shard` otherwise).  Phase 4 appends the new
shard to the target level when `task.target < m_levels.size()`
(`append_shard` in the source, a slip for `append`); otherwise the growth
branch executes `m_levels.push_back();` — the call carries NO argument, so
nothing built from `new_shard` is installed.  The growth branch is
modelled as appending a level holding no shards, the closest defined
reading of that statement. -/
def ExtensionStructure.perform_reconstruction (s : ExtensionStructure)
    (task : ReconstructionTask) : ExtensionStructure :=
  let shards := task.sources.foldl
    (fun (acc : List Shard) shid =>
      match s.m_levels.get? shid.level_idx.toNat with
      | some lv =>
          if shid.shard_idx == all_shards_idx then acc ++ lv.m_shards
          else acc ++ (lv.get_shard shid.shard_idx).toList
      | none => acc)
    []
  let new_shard := Shard.merge shards
  let levels1 := task.sources.foldl
    (fun (ls : List InternalLevel) shid =>
      updateAt ls shid.level_idx.toNat
        (fun lv =>
          if shid.shard_idx == all_shards_idx then lv.truncate
          else lv.delete_shard shid.shard_idx.toNat))
    s.m_levels
  if task.target < (levels1.length : Int) then
    { m_levels := updateAt levels1 task.target.toNat (fun lv => lv.append new_shard) }
  else
    { m_levels := levels1 ++ [{ m_level_no := (levels1.length : Int), m_shards := [] }] }

/-- Source `LevelingPolicy::capacity(level)`:
`m_buffer_size * pow(m_scale_factor, level + 1)`. -/
def LevelingPolicy.capacity (m_buffer_size m_scale_factor : Nat) (level : Nat) : Nat :=
  m_buffer_size * m_scale_factor ^ (level + 1)

/-- Loop body of `LevelingPolicy::find_reconstruction_target`: walk the
levels (record counts) upward carrying `incoming_records`; on the first
level `i` with `reccnt + incoming < capacity(i)` the target is set to `i`
and the loop breaks; otherwise `incoming_records` becomes that level's
record count.  When the loop falls through, the function returns the value
`target_level` was INITIALISED to — which in the source is `0`, not
`invalid_level_idx`. -/
def LevelingPolicy.find_target_loop (bs sf : Nat) (i : Nat) (incoming : Nat) :
    List Nat → Int
  | [] => 0
  | r :: rest =>
    if r + incoming < LevelingPolicy.capacity bs sf i then (i : Int)
    else LevelingPolicy.find_target_loop bs sf (i + 1) r rest

/-- Source `LevelingPolicy::find_reconstruction_target(levels)`; the
initial incoming count is `m_buffer_size`. -/
def LevelingPolicy.find_reconstruction_target (bs sf : Nat) (levels : List Nat) : Int :=
  LevelingPolicy.find_target_loop bs sf 0 bs levels

/-- Source `LevelingPolicy::get_reconstruction_tasks(epoch, incoming_reccnt)`
over the level record counts.  (`incoming_reccnt` is unused by the source
body, which calls `find_reconstruction_target` with its own
`m_buffer_size`.)  If the target equals `invalid_level_idx` the structure
grows (`target = levels.size()`); then for `i` from the target down to 1 a
Merge of level `i-1` into `i` is scheduled, carrying
`levels[i-1].reccnt + (i < size ? levels[i].reccnt : 0)` as the task
record count.  The 4-argument `ReconstructionVector::add_reconstruction`
overload in util/types.h drops its `type` argument, so the stored task
type is the default `Invalid`. -/
def LevelingPolicy.get_reconstruction_tasks (bs sf : Nat) (levels : List Nat) :
    List ReconstructionTask :=
  let t0 := LevelingPolicy.find_reconstruction_target bs sf levels
  let target : Int := if t0 == invalid_level_idx then (levels.length : Int) else t0
  (List.range target.toNat).reverse.map
    (fun j =>
      let i : Nat := j + 1
      let target_reccnt := if ((i : Int) < (levels.length : Int)) then levels.getD i 0 else 0
      let total := levels.getD (i - 1) 0 + target_reccnt
      { sources := [⟨(i : Int) - 1, all_shards_idx⟩]
        target := (i : Int)
        reccnt := total
        type := ReconstructionType.Invalid })

/-
  Range query (include/query/rangequery.h).

  `local_query` walks the shard's sorted data from the precomputed lower
  bound, rolling past keys below the lower bound and collecting while the
  key stays at most the upper bound; on sorted data this is
  dropWhile/takeWhile.  `local_query_buffer` linearly filters the buffer
  snapshot by the key range.  Neither filters tombstones or tagged
  (`is_deleted`) records, and `SKIP_DELETE_FILTER = true` tells the
  framework not to apply any delete filter of its own.

  `combine` is a k-way merge over the local result vectors driven by a
  min-priority-queue (psu-ds PriorityQueue, an external collaborator)
  keyed by `Wrapped::operator<`, holding one entry (the head) per
  non-exhausted cursor; `peek(1)` is the second-smallest entry.  The
  `version` bookkeeping recovers the cursor index and is dropped from the
  model, which works with cursor indexes directly; the order among EQUAL
  envelopes is heap-internal and modelled as lowest cursor index first.
-/

/-- Source `rq::Query::local_query` on a shard holding sorted data. -/
def rq_local_query (shard : Shard) (lower upper : Nat) : List Wrapped :=
  (shard.dropWhile (fun w => w.recd.key < lower)).takeWhile
    (fun w => w.recd.key ≤ upper)

/-- Source `rq::Query::local_query_buffer`: linear scan of the buffer
snapshot keeping records inside the key range. -/
def rq_local_query_buffer (buffer : List Wrapped) (lower upper : Nat) : List Wrapped :=
  buffer.filter (fun w => lower ≤ w.recd.key && w.recd.key ≤ upper)

/-- Heads of the non-exhausted cursors, paired with their cursor index
(the content of the merge priority queue), indexes starting at `k`. -/
def cursorHeads : List (List Wrapped) → Nat → List (Nat × Wrapped)
  | [], _ => []
  | [] :: cs, k => cursorHeads cs (k + 1)
  | (w :: _) :: cs, k => (k, w) :: cursorHeads cs (k + 1)

/-- Minimum entry of the queue by `Wrapped.lt`; the first entry wins ties
(the tie order among equal envelopes is heap-internal in the source). -/
def pqMin : List (Nat × Wrapped) → Option (Nat × Wrapped)
  | [] => none
  | h :: t => some (t.foldl (fun best p => if Wrapped.lt p.2 best.2 then p else best) h)

/-- Advance the cursor at index `i` past its head (`advance_cursor`). -/
def advanceCursor : List (List Wrapped) → Nat → List (List Wrapped)
  | [], _ => []
  | c :: cs, 0 => c.tail :: cs
  | c :: cs, Nat.succ i => c :: advanceCursor cs i

/-- Merge loop of `rq::Query::combine`: pop the minimum `now`; if `now` is
a live record and the second-smallest `next` is a tombstone for the same
record, cancel the pair (advance both cursors, emit nothing); otherwise
emit `now`'s record unless `now` is a tombstone, and advance its cursor.
Each iteration consumes at least one element, so the total input length is
sufficient fuel. -/
def combineLoop : Nat → List (List Wrapped) → List Record → List Record
  | 0, _, out => out
  | Nat.succ fuel, cursors, out =>
    match pqMin (cursorHeads cursors 0) with
    | none => out
    | some now =>
      match pqMin ((cursorHeads cursors 0).filter (fun p => p.1 != now.1)) with
      | some nxt =>
        if !now.2.is_tombstone && now.2.recd == nxt.2.recd && nxt.2.is_tombstone then
          combineLoop fuel (advanceCursor (advanceCursor cursors now.1) nxt.1) out
        else
          combineLoop fuel (advanceCursor cursors now.1)
            (if now.2.is_tombstone then out else out ++ [now.2.recd])
      | none =>
        combineLoop fuel (advanceCursor cursors now.1)
          (if now.2.is_tombstone then out else out ++ [now.2.recd])

/-- Source `rq::Query::combine(local_results, parms, output)` with an empty
initial output vector. -/
def rq_combine (local_results : List (List Wrapped)) : List Record :=
  combineLoop ((local_results.map List.length).sum) local_results []

/-
  Epoch coordinator (DynamicExtension.h).

  The coordinator keeps three wide-CAS slots `m_previous_epoch`,
  `m_current_epoch`, `m_next_epoch`, each an `epoch_ptr` pair
  (epoch pointer, refcount).  Epochs are modelled by their allocation
  ids (`m_epoch_cnt` is monotone, so ids are fresh); `freed` records the
  ids deleted so far, in deletion order.  The transition system's atomic
  actions are the coordinator operations themselves:

  - `pin_current` / `pin_previous`: `get_active_epoch` CAS-increments the
    refcount of `m_current_epoch`, falling back to `m_previous_epoch`
    during a transition (current null);
  - `unpin_current` / `unpin_previous`: `end_job` decrements the refcount
    of whichever of the two slots holds the epoch;
  - `create_new_epoch`: requires `m_next_epoch` null, installs a freshly
    cloned epoch with refcount 0 (its transient pin/unpin of the current
    epoch nets to zero);
  - `advance_epoch`: calls `retire_epoch` on the previous slot's epoch
    (which spin-waits until that refcount is 0, swaps the slot to null and
    deletes the epoch — `retire_epoch` has no other call site), then moves
    the current pair into `m_previous_epoch`, the next pair into
    `m_current_epoch`, and nulls `m_next_epoch`.
-/

/-- Model of the `epoch_ptr` pair stored in one atomic slot. -/
structure Slot where
  ptr : Option Nat
  refcnt : Nat
deriving DecidableEq, Repr

/-- State of the epoch coordinator. -/
structure CoordState where
  m_previous_epoch : Slot
  m_current_epoch : Slot
  m_next_epoch : Slot
  freed : List Nat
  next_id : Nat
deriving DecidableEq, Repr

/-- Constructor state: epoch 0 installed in `m_current_epoch`, the other
slots null, nothing freed. -/
def initCoord : CoordState :=
  { m_previous_epoch := ⟨none, 0⟩
    m_current_epoch := ⟨some 0, 0⟩
    m_next_epoch := ⟨none, 0⟩
    freed := []
    next_id := 1 }

/-- One atomic coordinator operation. -/
inductive CoordStep : CoordState → CoordState → Prop where
  | pin_current (s : CoordState) (e : Nat) :
      s.m_current_epoch.ptr = some e →
      CoordStep s { s with m_current_epoch := ⟨some e, s.m_current_epoch.refcnt + 1⟩ }
  | pin_previous (s : CoordState) (e : Nat) :
      s.m_current_epoch.ptr = none →
      s.m_previous_epoch.ptr = some e →
      CoordStep s { s with m_previous_epoch := ⟨some e, s.m_previous_epoch.refcnt + 1⟩ }
  | unpin_current (s : CoordState) (e : Nat) :
      s.m_current_epoch.ptr = some e →
      0 < s.m_current_epoch.refcnt →
      CoordStep s { s with m_current_epoch := ⟨some e, s.m_current_epoch.refcnt - 1⟩ }
  | unpin_previous (s : CoordState) (e : Nat) :
      s.m_previous_epoch.ptr = some e →
      0 < s.m_previous_epoch.refcnt →
      CoordStep s { s with m_previous_epoch := ⟨some e, s.m_previous_epoch.refcnt - 1⟩ }
  | create_new_epoch (s : CoordState) :
      s.m_next_epoch.ptr = none →
      CoordStep s { s with
        m_next_epoch := ⟨some s.next_id, 0⟩
        next_id := s.next_id + 1 }
  | advance_epoch (s : CoordState) (e : Nat) :
      s.m_next_epoch.ptr = some e →
      (s.m_previous_epoch.ptr = none ∨ s.m_previous_epoch.refcnt = 0) →
      CoordStep s
        { m_previous_epoch := s.m_current_epoch
          m_current_epoch := s.m_next_epoch
          m_next_epoch := ⟨none, 0⟩
          freed := s.freed ++ s.m_previous_epoch.ptr.toList
          next_id := s.next_id }

/-- States reachable from the constructor state by interleaving the
coordinator operations. -/
inductive CoordReachable : CoordState → Prop where
  | init : CoordReachable initCoord
  | step {s t : CoordState} : CoordReachable s → CoordStep s t → CoordReachable t

/-- Number of slots among previous/current/next holding epoch `e`. -/
def holdsCount (s : CoordState) (e : Nat) : Nat :=
  (if s.m_previous_epoch.ptr = some e then 1 else 0) +
  (if s.m_current_epoch.ptr = some e then 1 else 0) +
  (if s.m_next_epoch.ptr = some e then 1 else 0)

/-- Inductive invariant of the coordinator: each epoch occupies at most one
slot, no epoch is freed twice, a freed epoch is in no slot, and every
epoch id in a slot or in `freed` is below the allocation counter. -/
def CoordInv (s : CoordState) : Prop :=
  (∀ e, holdsCount s e ≤ 1) ∧
  s.freed.Nodup ∧
  (∀ e, e ∈ s.freed → holdsCount s e = 0) ∧
  (∀ e, 0 < holdsCount s e → e < s.next_id) ∧
  (∀ e, e ∈ s.freed → e < s.next_id)

theorem holdsCount_set_cur (s : CoordState) (e n : Nat)
    (hc : s.m_current_epoch.ptr = some e) (x : Nat) :
    holdsCount { s with m_current_epoch := ⟨some e, n⟩ } x = holdsCount s x := by
  simp [holdsCount, hc]

theorem holdsCount_set_prev (s : CoordState) (e n : Nat)
    (hp : s.m_previous_epoch.ptr = some e) (x : Nat) :
    holdsCount { s with m_previous_epoch := ⟨some e, n⟩ } x = holdsCount s x := by
  simp [holdsCount, hp]

theorem coordInv_init : CoordInv initCoord := by
  refine ⟨?_, ?_, ?_, ?_, ?_⟩
  · intro e
    cases e <;> simp [holdsCount, initCoord]
  · simp [initCoord]
  · intro e h
    simp [initCoord] at h
  · intro e h
    cases e with
    | zero => simp [initCoord]
    | succ n => simp [holdsCount, initCoord] at h
  · intro e h
    simp [initCoord] at h

theorem coordInv_step {s t : CoordState} (hs : CoordInv s) (st : CoordStep s t) :
    CoordInv t := by
  obtain ⟨h1, h2, h3, h4, h5⟩ := hs
  cases st with
  | pin_current e hc =>
      exact ⟨fun x => (holdsCount_set_cur s e _ hc x) ▸ h1 x, h2,
        fun x hx => (holdsCount_set_cur s e _ hc x) ▸ h3 x hx,
        fun x hx => h4 x ((holdsCount_set_cur s e _ hc x) ▸ hx), h5⟩
  | pin_previous e hc hp =>
      exact ⟨fun x => (holdsCount_set_prev s e _ hp x) ▸ h1 x, h2,
        fun x hx => (holdsCount_set_prev s e _ hp x) ▸ h3 x hx,
        fun x hx => h4 x ((holdsCount_set_prev s e _ hp x) ▸ hx), h5⟩
  | unpin_current e hc hr =>
      exact ⟨fun x => (holdsCount_set_cur s e _ hc x) ▸ h1 x, h2,
        fun x hx => (holdsCount_set_cur s e _ hc x) ▸ h3 x hx,
        fun x hx => h4 x ((holdsCount_set_cur s e _ hc x) ▸ hx), h5⟩
  | unpin_previous e hp hr =>
      exact ⟨fun x => (holdsCount_set_prev s e _ hp x) ▸ h1 x, h2,
        fun x hx => (holdsCount_set_prev s e _ hp x) ▸ h3 x hx,
        fun x hx => h4 x ((holdsCount_set_prev s e _ hp x) ▸ hx), h5⟩
  | create_new_epoch hn =>
      have hfresh : holdsCount s s.next_id = 0 := by
        by_contra h
        exact absurd (h4 s.next_id (Nat.pos_of_ne_zero h)) (lt_irrefl _)
      have hcount : ∀ x, holdsCount
          { s with
            m_next_epoch := ⟨some s.next_id, 0⟩
            next_id := s.next_id + 1 } x =
          holdsCount s x + (if x = s.next_id then 1 else 0) := by
        intro x
        by_cases hx : x = s.next_id
        · subst hx
          simp [holdsCount, hn]
        · have hx2 : s.next_id ≠ x := Ne.symm hx
          simp [holdsCount, hn, hx, hx2]
      refine ⟨?_, h2, ?_, ?_, ?_⟩
      · intro x
        rw [hcount x]
        by_cases hx : x = s.next_id
        · subst hx
          rw [hfresh]
          simp
        · have := h1 x
          simp only [hx, if_false]
          omega
      · intro x hx
        have hx1 : x ∈ s.freed := hx
        rw [hcount x]
        have hxlt := h5 x hx1
        have hxne : x ≠ s.next_id := by omega
        simp only [hxne, if_false, Nat.add_zero]
        exact h3 x hx1
      · intro x hx
        show x < s.next_id + 1
        rw [hcount x] at hx
        by_cases hxe : x = s.next_id
        · omega
        · simp only [hxe, if_false, Nat.add_zero] at hx
          have := h4 x hx
          omega
      · intro x hx
        have hx1 : x ∈ s.freed := hx
        show x < s.next_id + 1
        exact lt_trans (h5 x hx1) (Nat.lt_succ_self _)
  | advance_epoch e hn hr =>
      have freednew : ∀ x, x ∈ s.freed ++ s.m_previous_epoch.ptr.toList →
          (x ∈ s.freed ∨ s.m_previous_epoch.ptr = some x) := by
        intro x hx
        rcases List.mem_append.mp hx with h | h
        · exact Or.inl h
        · right
          cases hp : s.m_previous_epoch.ptr with
          | none => rw [hp] at h; simp at h
          | some p => rw [hp] at h; simp at h; rw [h]
      have hcnt : ∀ x, holdsCount
          { m_previous_epoch := s.m_current_epoch
            m_current_epoch := s.m_next_epoch
            m_next_epoch := ⟨none, 0⟩
            freed := s.freed ++ s.m_previous_epoch.ptr.toList
            next_id := s.next_id } x =
          (if s.m_current_epoch.ptr = some x then 1 else 0) +
          (if s.m_next_epoch.ptr = some x then 1 else 0) := by
        intro x
        simp [holdsCount]
      refine ⟨?_, ?_, ?_, ?_, ?_⟩
      · intro x
        rw [hcnt x]
        have := h1 x
        simp only [holdsCount] at this
        omega
      · rcases hp : s.m_previous_epoch.ptr with _ | p
        · simpa [hp] using h2
        · have hpm : holdsCount s p ≠ 0 := by
            simp [holdsCount, hp]
          have hnotin : p ∉ s.freed := fun hmem => hpm (h3 p hmem)
          simp [hp, List.nodup_append, h2, hnotin]
      · intro x hx
        rw [hcnt x]
        rcases freednew x hx with hold | hprev
        · have := h3 x hold
          simp only [holdsCount] at this
          omega
        · have h1x := h1 x
          have hpp : (if s.m_previous_epoch.ptr = some x then (1 : Nat) else 0) = 1 := by
            simp [hprev]
          simp only [holdsCount] at h1x
          omega
      · intro x hx
        rw [hcnt x] at hx
        apply h4 x
        simp only [holdsCount]
        omega
      · intro x hx
        rcases freednew x hx with hold | hprev
        · exact h5 x hold
        · apply h4 x
          simp [holdsCount, hprev]

/-
  Helper lemmas about headers viewed bitwise.
-/

theorem and_two_ne_zero (x : Nat) : (x &&& 2 != 0) = x.testBit 1 := by
  have h := Nat.and_two_pow x 1
  norm_num at h
  rw [h]
  cases x.testBit 1 <;> rfl

theorem and_one_ne_zero (x : Nat) : (x &&& 1 != 0) = x.testBit 0 := by
  have h := Nat.and_two_pow x 0
  simp only [pow_zero, Nat.mul_one] at h
  rw [h]
  cases x.testBit 0 <;> rfl

theorem testBit_two_eq (i : Nat) : (2 : Nat).testBit i = decide (i = 1) := by
  match i with
  | 0 => decide
  | 1 => decide
  | (n + 2) =>
    have h4 : (2 : Nat) ^ 2 ≤ 2 ^ (n + 2) := Nat.pow_le_pow_right (by norm_num) (by omega)
    have h2 : (2 : Nat) < 2 ^ (n + 2) := by
      have h4e : (2 : Nat) ^ 2 = 4 := by norm_num
      omega
    simp [Nat.testBit_lt_two_pow h2]

theorem testBit_one_eq (i : Nat) : (1 : Nat).testBit i = decide (i = 0) := by
  match i with
  | 0 => decide
  | (n + 1) =>
    have h4 : (2 : Nat) ^ 1 ≤ 2 ^ (n + 1) := Nat.pow_le_pow_right (by norm_num) (by omega)
    have h2 : (1 : Nat) < 2 ^ (n + 1) := by
      have h4e : (2 : Nat) ^ 1 = 2 := by norm_num
      omega
    simp [Nat.testBit_lt_two_pow h2]

theorem or_two_shiftRight (x : Nat) : (x ||| 2) >>> 2 = x >>> 2 := by
  apply Nat.eq_of_testBit_eq
  intro i
  rw [Nat.testBit_shiftRight, Nat.testBit_shiftRight, Nat.testBit_lor, testBit_two_eq]
  have h1 : 2 + i ≠ 1 := by omega
  simp [h1]

theorem or_one_shiftRight (x : Nat) : (x ||| 1) >>> 2 = x >>> 2 := by
  apply Nat.eq_of_testBit_eq
  intro i
  rw [Nat.testBit_shiftRight, Nat.testBit_shiftRight, Nat.testBit_lor, testBit_one_eq]
  have h1 : 2 + i ≠ 0 := by omega
  simp [h1]

/-
  Soundness of the combine merge: every emitted record originates from a
  non-tombstone envelope of the input.
-/

theorem pqFold_mem (t : List (Nat × Wrapped)) (best : Nat × Wrapped) :
    List.foldl (fun b p => if Wrapped.lt p.2 b.2 then p else b) best t ∈ best :: t := by
  induction t generalizing best with
  | nil => simp
  | cons hd tl ih =>
    simp only [List.foldl_cons]
    have h2 := ih (if Wrapped.lt hd.2 best.2 then hd else best)
    rcases List.mem_cons.mp h2 with h | h
    · rw [h]
      split
      · exact List.mem_cons_of_mem _ (List.mem_cons_self _ _)
      · exact List.mem_cons_self _ _
    · exact List.mem_cons_of_mem _ (List.mem_cons_of_mem _ h)

theorem pqMin_mem {l : List (Nat × Wrapped)} {p : Nat × Wrapped}
    (h : pqMin l = some p) : p ∈ l := by
  cases l with
  | nil => simp [pqMin] at h
  | cons hd tl =>
    simp only [pqMin, Option.some_inj] at h
    rw [← h]
    exact pqFold_mem tl hd

theorem cursorHeads_mem_flatten {cs : List (List Wrapped)} {k : Nat} {p : Nat × Wrapped}
    (h : p ∈ cursorHeads cs k) : p.2 ∈ cs.flatten := by
  induction cs generalizing k with
  | nil => simp [cursorHeads] at h
  | cons c cs ih =>
    cases c with
    | nil =>
      simp only [cursorHeads] at h
      simp only [List.flatten_cons, List.nil_append]
      exact ih h
    | cons w0 c =>
      simp only [cursorHeads, List.mem_cons] at h
      rcases h with h | h
      · have hw : p.2 = w0 := congrArg Prod.snd h
        simp [hw]
      · have := ih h
        simp [this]

theorem advanceCursor_subset {cs : List (List Wrapped)} {i : Nat} {w : Wrapped}
    (h : w ∈ (advanceCursor cs i).flatten) : w ∈ cs.flatten := by
  induction cs generalizing i with
  | nil => simp [advanceCursor] at h
  | cons c cs ih =>
    cases i with
    | zero =>
      simp only [advanceCursor, List.flatten_cons, List.mem_append] at h ⊢
      rcases h with h | h
      · exact Or.inl (List.tail_subset _ h)
      · exact Or.inr h
    | succ i =>
      simp only [advanceCursor, List.flatten_cons, List.mem_append] at h ⊢
      rcases h with h | h
      · exact Or.inl h
      · exact Or.inr (ih h)

theorem combineLoop_sound (fuel : Nat) :
    ∀ (cursors : List (List Wrapped)) (out : List Record) (r : Record),
      r ∈ combineLoop fuel cursors out →
      r ∈ out ∨ ∃ w, w ∈ cursors.flatten ∧ w.is_tombstone = false ∧ w.recd = r := by
  induction fuel with
  | zero =>
    intro cursors out r h
    exact Or.inl h
  | succ fuel ih =>
    intro cursors out r h
    simp only [combineLoop] at h
    split at h
    · exact Or.inl h
    · rename_i now heq
      have hnow : now.2 ∈ cursors.flatten := cursorHeads_mem_flatten (pqMin_mem heq)
      split at h
      · rename_i nxt heq2
        split at h
        · rcases ih _ _ r h with hin | ⟨w, hw, hts, hr⟩
          · exact Or.inl hin
          · exact Or.inr ⟨w, advanceCursor_subset (advanceCursor_subset hw), hts, hr⟩
        · rcases ih _ _ r h with hin | ⟨w, hw, hts, hr⟩
          · by_cases hts2 : now.2.is_tombstone = true
            · rw [if_pos hts2] at hin
              exact Or.inl hin
            · rw [if_neg hts2] at hin
              rcases List.mem_append.mp hin with hin | hin
              · exact Or.inl hin
              · have hr2 : now.2.recd = r := (List.mem_singleton.mp hin).symm
                have hts3 : now.2.is_tombstone = false := by
                  cases hb : now.2.is_tombstone
                  · rfl
                  · exact absurd hb hts2
                exact Or.inr ⟨now.2, hnow, hts3, hr2⟩
          · exact Or.inr ⟨w, advanceCursor_subset hw, hts, hr⟩
      · rcases ih _ _ r h with hin | ⟨w, hw, hts, hr⟩
        · by_cases hts2 : now.2.is_tombstone = true
          · rw [if_pos hts2] at hin
            exact Or.inl hin
          · rw [if_neg hts2] at hin
            rcases List.mem_append.mp hin with hin | hin
            · exact Or.inl hin
            · have hr2 : now.2.recd = r := (List.mem_singleton.mp hin).symm
              have hts3 : now.2.is_tombstone = false := by
                cases hb : now.2.is_tombstone
                · rfl
                · exact absurd hb hts2
              exact Or.inr ⟨now.2, hnow, hts3, hr2⟩
        · exact Or.inr ⟨w, advanceCursor_subset hw, hts, hr⟩

theorem rq_combine_sound {local_results : List (List Wrapped)} {r : Record}
    (h : r ∈ rq_combine local_results) :
    ∃ w, w ∈ local_results.flatten ∧ w.is_tombstone = false ∧ w.recd = r := by
  rcases combineLoop_sound _ _ _ _ h with h | h
  · simp at h
  · exact h

/-
  Scenario definitions for the literal end-to-end claims.
-/

/-- Shard holding records with keys 1..100 in sorted order (the structure
contents after the scenario inserts; headers carry the append positions in
bits 2..31). -/
def shard_1_to_100 : Shard :=
  (List.range 100).map (fun i => ⟨i <<< 2, ⟨i + 1, i + 1⟩⟩)

/-- Result of the tagging erase of key 42 on a structure holding
`shard_1_to_100` in its only level. -/
def tagScenario : Bool × ExtensionStructure :=
  ExtensionStructure.tagged_delete ⟨[⟨0, [shard_1_to_100]⟩]⟩ ⟨42, 42⟩

/-- The (single) shard of the structure after the tagging erase. -/
def taggedShard : Shard :=
  (tagScenario.2.m_levels.headD ⟨0, []⟩).m_shards.headD []

/-- Auxiliary: result codes of a sequence of facade inserts. -/
def insertResults (d : DynamicExtension) (keys : List Nat) : List Nat :=
  (keys.foldl
    (fun (acc : List Nat × DynamicExtension) k =>
      let r := acc.2.insert ⟨k, k⟩
      (acc.1 ++ [r.1], r.2))
    ([], d)).1

/-- Auxiliary for C3: the loop of `find_reconstruction_target` only ever
returns its initialisation value 0 or a loop index, never a negative
sentinel. -/
theorem find_target_loop_nonneg (bs sf : Nat) :
    ∀ (levels : List Nat) (i incoming : Nat),
      0 ≤ LevelingPolicy.find_target_loop bs sf i incoming levels := by
  intro levels
  induction levels with
  | nil =>
    intro i incoming
    simp [LevelingPolicy.find_target_loop]
  | cons r rest ih =>
    intro i incoming
    simp only [LevelingPolicy.find_target_loop]
    split
    · exact Int.ofNat_nonneg i
    · exact ih (i + 1) r

/-
  Claim theorems.
-/

/-- C1 (code_bug evidence): `perform_reconstruction` applied at the failing
input — a structure whose only level holds one shard of two records, and a
task gathering that level (shard index ALL) with target 1 = `|levels|`.
The growth branch of the source is `m_levels.push_back();`, which carries
no argument: no level holding the merged shard is installed, so the
gathered records are dropped and the total record count falls from 2 to 0
even though a new (empty) level appears.  The claim states the count is
unchanged and the new level holds the new shard. -/
theorem c1_reconstruction_growth_drops_records :
    (ExtensionStructure.perform_reconstruction ⟨[⟨0, [[⟨0, ⟨1, 1⟩⟩, ⟨4, ⟨2, 2⟩⟩]]⟩]⟩
      ⟨[⟨0, all_shards_idx⟩], 1, 2, ReconstructionType.Merge⟩).get_record_count = 0 ∧
    (ExtensionStructure.get_record_count ⟨[⟨0, [[⟨0, ⟨1, 1⟩⟩, ⟨4, ⟨2, 2⟩⟩]]⟩]⟩) = 2 ∧
    (ExtensionStructure.perform_reconstruction ⟨[⟨0, [[⟨0, ⟨1, 1⟩⟩, ⟨4, ⟨2, 2⟩⟩]]⟩]⟩
      ⟨[⟨0, all_shards_idx⟩], 1, 2, ReconstructionType.Merge⟩).get_height = 2 := by
  decide

/-- C2: `append(rec, is_tombstone)` accepts (returns 1) iff before the call
the tail is strictly below the capacity and, for a tombstone append, the
tombstone count is strictly below the tombstone capacity; an append with
tail at capacity returns 0; a rejected append leaves the buffer unchanged. -/
theorem c2_append_accept_iff (b : MutableBuffer) (rec : Record) (ts : Bool) :
    ((b.append rec ts).1 = 1 ↔
      (b.m_tail < b.m_cap ∧ (ts = true → b.m_tombstonecnt < b.m_tombstone_cap))) ∧
    (b.m_tail = b.m_cap → (b.append rec ts).1 = 0) ∧
    ((b.append rec ts).1 = 0 → (b.append rec ts).2 = b) := by
  cases ts <;>
    simp only [MutableBuffer.append, MutableBuffer.try_advance_tail] <;>
    split_ifs <;>
    simp_all <;>
    omega

/-- C2 witness: a concrete accepted append (fresh buffer of capacity 2). -/
theorem c2_append_accept_iff_witness :
    ((MutableBuffer.new 2 1).append ⟨5, 5⟩ false).1 = 1 :=
  (c2_append_accept_iff (MutableBuffer.new 2 1) ⟨5, 5⟩ false).1.mpr
    ⟨by decide, by decide⟩

/-- C3 (code_bug evidence): the leveling policy's grow branch is dead code.
`find_reconstruction_target` initialises `target_level` to 0 and returns
that value when no level fits, so it never yields `invalid_level_idx` (the
universally quantified conjunct) and the `target = |levels|` growth in
`get_reconstruction_tasks` is unreachable.  At the failing input
(buffer size 4, scale factor 2, one level with 8 records — capacity 8, so
nothing fits) the target comes back 0 and the task list is empty, where
the claim requires growth targeting level `|levels|` = 1. -/
theorem c3_leveling_growth_unreachable :
    (∀ (bs sf : Nat) (levels : List Nat),
      0 ≤ LevelingPolicy.find_reconstruction_target bs sf levels) ∧
    LevelingPolicy.find_reconstruction_target 4 2 [8] = 0 ∧
    LevelingPolicy.get_reconstruction_tasks 4 2 [8] = [] ∧
    LevelingPolicy.find_reconstruction_target 4 2 [8, 2] = 1 := by
  refine ⟨?_, by decide, by decide, by decide⟩
  intro bs sf levels
  exact find_target_loop_nonneg bs sf levels 0 bs

/-- C4 (code_bug evidence): `InternalLevel::clone` assigns through
`operator[]` into a default-constructed (empty) shard vector, which is
out-of-range (undefined behaviour) for every level holding at least one
shard; consequently `ExtensionStructure::copy` is undefined on any
structure with a populated level.  Only the degenerate empty level clones;
the claim's promised shard-reference sharing never happens. -/
theorem c4_copy_undefined_on_nonempty_level :
    InternalLevel.clone ⟨0, [[⟨0, ⟨1, 1⟩⟩]]⟩ = none ∧
    ExtensionStructure.copy ⟨[⟨0, [[⟨0, ⟨1, 1⟩⟩]]⟩]⟩ = none ∧
    InternalLevel.clone ⟨3, []⟩ = some ⟨3, []⟩ := by
  decide

/-- C5 (code_bug evidence): under tagging, erasing key 42 tags the stored
envelope (delete bit set) and leaves `get_record_count` = 100 and
`get_tombstone_count` = 0 as the claim says — but the range query over
[40, 45] RETURNS key 42: `rq::Query` declares `SKIP_DELETE_FILTER = true`
while neither `local_query` nor `combine` tests `is_deleted`, and the
facade applies no delete filter, so the tagged record flows to the
output.  The claim (and the spec scenario) require 42 to be excluded. -/
theorem c5_tagged_record_not_filtered :
    tagScenario.1 = true ∧
    tagScenario.2.get_record_count = 100 ∧
    tagScenario.2.get_tombstone_count = 0 ∧
    (taggedShard.filter (fun w => w.recd.key == 42)).all (fun w => w.is_deleted) = true ∧
    (rq_combine [rq_local_query taggedShard 40 45]).map Record.key =
      [40, 41, 42, 43, 44, 45] := by
  decide

/-- C6 counterexample: per-shard results feeding `combine` that contain
both a live record and a tombstone for key 42, with the tombstone envelope
sorting BEFORE the live one (header 1 < header 164, as happens when the
tombstone's append position is from an earlier buffer generation).  The
merge pops the tombstone first, the cancellation test (`now` live, `next`
tombstone) never fires, and the supposedly deleted record is emitted —
refuting the claim that such a pair is always cancelled. -/
theorem c6_tombstone_first_escapes_cancellation :
    rq_combine [[⟨1, ⟨42, 42⟩⟩], [⟨164, ⟨42, 42⟩⟩]] = [⟨42, 42⟩] ∧
    Wrapped.is_tombstone ⟨1, ⟨42, 42⟩⟩ = true ∧
    Wrapped.is_tombstone ⟨164, ⟨42, 42⟩⟩ = false := by
  decide

/-- C6 amended: no record emitted by `combine` ever originates from a
tombstone envelope, and when the live record's envelope sorts before its
tombstone (as in the literal scenario: records 40..45 with their append
positions, tombstone for 42 appended later), the pair IS cancelled and the
output is exactly {40, 41, 43, 44, 45}. -/
theorem c6_combine_cancels_live_before_tombstone :
    (∀ (local_results : List (List Wrapped)) (r : Record),
      r ∈ rq_combine local_results →
      ∃ w, w ∈ local_results.flatten ∧ w.is_tombstone = false ∧ w.recd = r) ∧
    (rq_combine [[⟨156, ⟨40, 40⟩⟩, ⟨160, ⟨41, 41⟩⟩, ⟨164, ⟨42, 42⟩⟩, ⟨168, ⟨43, 43⟩⟩,
        ⟨172, ⟨44, 44⟩⟩, ⟨176, ⟨45, 45⟩⟩], [⟨401, ⟨42, 42⟩⟩]]).map Record.key =
      [40, 41, 43, 44, 45] :=
  ⟨fun _ _ h => rq_combine_sound h, by decide⟩

/-- C6 witness: the soundness conjunct applied at a concrete singleton
input. -/
theorem c6_combine_cancels_live_before_tombstone_witness :
    ∃ w, w ∈ ([[⟨0, ⟨7, 7⟩⟩]] : List (List Wrapped)).flatten ∧
      w.is_tombstone = false ∧ w.recd = ⟨7, 7⟩ :=
  c6_combine_cancels_live_before_tombstone.1 [[⟨0, ⟨7, 7⟩⟩]] ⟨7, 7⟩ (by decide)

/-- C7 counterexample: the header operation `set_tombstone(false)` executes
`header &= 0`, zeroing the whole header: applied to an envelope whose
tombstone bit, delete tag and position bits are all written (header 23 =
10111b), it clears the tombstone bit — refuting the claim that no envelope
operation clears a written bit. -/
theorem c7_set_tombstone_false_clears_header :
    Wrapped.is_tombstone ⟨23, ⟨7, 7⟩⟩ = true ∧
    Wrapped.is_deleted ⟨23, ⟨7, 7⟩⟩ = true ∧
    (Wrapped.set_tombstone ⟨23, ⟨7, 7⟩⟩ false).header = 0 ∧
    (Wrapped.set_tombstone ⟨23, ⟨7, 7⟩⟩ false).is_tombstone = false ∧
    (Wrapped.set_tombstone ⟨23, ⟨7, 7⟩⟩ false).is_deleted = false := by
  decide

/-- C7 amended: for `set_delete` and `set_tombstone(true)` — the only
header-writing envelope operations the repository ever invokes — the
invariant holds: each only adds its designated bit (no set bit of the
header is ever cleared), `set_delete` preserves the tombstone bit and the
position bits, and `set_tombstone(true)` preserves the delete tag and the
position bits. -/
theorem c7_header_ops_set_only (w : Wrapped) (i : Nat) :
    (w.header.testBit i = true → (w.set_delete).header.testBit i = true) ∧
    (w.header.testBit i = true → (w.set_tombstone true).header.testBit i = true) ∧
    (w.set_delete).is_deleted = true ∧
    (w.set_delete).is_tombstone = w.is_tombstone ∧
    (w.set_delete).header >>> 2 = w.header >>> 2 ∧
    (w.set_tombstone true).is_tombstone = true ∧
    (w.set_tombstone true).is_deleted = w.is_deleted ∧
    (w.set_tombstone true).header >>> 2 = w.header >>> 2 := by
  refine ⟨?_, ?_, ?_, ?_, ?_, ?_, ?_, ?_⟩
  · intro h
    simp [Wrapped.set_delete, Nat.testBit_lor, h]
  · intro h
    simp [Wrapped.set_tombstone, Nat.testBit_lor, h]
  · simp [Wrapped.set_delete, Wrapped.is_deleted, and_two_ne_zero, Nat.testBit_lor,
      testBit_two_eq]
  · simp [Wrapped.set_delete, Wrapped.is_tombstone, and_one_ne_zero, Nat.testBit_lor,
      testBit_two_eq]
  · exact or_two_shiftRight w.header
  · simp [Wrapped.set_tombstone, Wrapped.is_tombstone, and_one_ne_zero, Nat.testBit_lor,
      testBit_one_eq]
  · simp [Wrapped.set_tombstone, Wrapped.is_deleted, and_two_ne_zero, Nat.testBit_lor,
      testBit_one_eq]
  · exact or_one_shiftRight w.header

/-- C7 witness: bit-0 monotonicity of `set_delete` at a concrete envelope. -/
theorem c7_header_ops_set_only_witness :
    ((Wrapped.mk 1 ⟨3, 3⟩).set_delete).header.testBit 0 = true :=
  (c7_header_ops_set_only ⟨1, ⟨3, 3⟩⟩ 0).1 (by decide)

/-- C8 (code_bug evidence): the facade constructor passes
`(buffer_low_watermark, buffer_high_watermark)` to the buffer constructor
`MutableBuffer(capacity, max_tombstone_cap)`, so the buffer's capacity is
the LOW watermark: with low = 4 and high = 8 the capacity is 4, not 8, and
the fifth consecutive facade insert is rejected after only 4 buffered
records — contradicting the claim (and the constructor's documentation)
that inserts begin to fail only at `buffer_high_watermark`. -/
theorem c8_buffer_capacity_is_low_watermark :
    (DynamicExtension.new 4 8).m_buffer.m_cap = 4 ∧
    ¬((DynamicExtension.new 4 8).m_buffer.m_cap = 8) ∧
    insertResults (DynamicExtension.new 4 8) [1, 2, 3, 4, 5] = [1, 1, 1, 1, 0] := by
  decide

/-- C9: in every state reachable by interleaving the epoch coordinator
operations (pin, unpin, create, advance — `retire_epoch` runs inside
`advance_epoch`, its only call site, and is the only action that frees),
each epoch pointer occupies at most one of the slots
previous/current/next, and no epoch is ever freed twice (the list of
retirement-freed epochs is duplicate-free; the transition system frees
exclusively in the retire action by construction). -/
theorem c9_epoch_slots_unique_freed_once (s : CoordState) (hs : CoordReachable s) :
    (∀ e, holdsCount s e ≤ 1) ∧ s.freed.Nodup := by
  have hinv : CoordInv s := by
    induction hs with
    | init => exact coordInv_init
    | step hr hst ih => exact coordInv_step ih hst
  exact ⟨hinv.1, hinv.2.1⟩

/-- C9 witness: the invariant at the concrete state reached by one
`create_new_epoch` followed by one `advance_epoch` from the constructor
state. -/
theorem c9_epoch_slots_unique_freed_once_witness :
    (∀ e, holdsCount ⟨⟨some 0, 0⟩, ⟨some 1, 0⟩, ⟨none, 0⟩, [], 2⟩ e ≤ 1) ∧
    List.Nodup ([] : List Nat) :=
  c9_epoch_slots_unique_freed_once _
    (CoordReachable.step
      (CoordReachable.step CoordReachable.init (CoordStep.create_new_epoch _ rfl))
      (CoordStep.advance_epoch _ 1 rfl (Or.inl rfl)))

/-- C10: a `MutableBuffer` constructed with `max_tombstone_cap = 0`
allocates no tombstone bloom filter, and `get_aux_memory_usage` — which
dereferences the filter pointer unconditionally — is undefined (`none`);
with any positive `max_tombstone_cap` the filter exists and the call is
defined. -/
theorem c10_aux_memory_requires_filter (cap mtc : Nat) :
    (MutableBuffer.new cap 0).get_aux_memory_usage = none ∧
    (0 < mtc → ((MutableBuffer.new cap mtc).get_aux_memory_usage).isSome = true) := by
  constructor
  · simp [MutableBuffer.new, MutableBuffer.get_aux_memory_usage]
  · intro h
    simp [MutableBuffer.new, MutableBuffer.get_aux_memory_usage, h]

/-- C10 witness: concrete capacities 7 and 3. -/
theorem c10_aux_memory_requires_filter_witness :
    (MutableBuffer.new 7 0).get_aux_memory_usage = none ∧
    ((MutableBuffer.new 7 3).get_aux_memory_usage).isSome = true :=
  ⟨(c10_aux_memory_requires_filter 7 3).1,
    (c10_aux_memory_requires_filter 7 3).2 (by decide)⟩

end DE
